import Mathlib

/-!
# Verification of `fastaudio/augment/spectrogram.py`

A shallow embedding of the spectrogram augmentation transforms
(`CropTime`, `_tfm_pad_spectro`, `MaskFreq`, `MaskTime`, `SGRoll`,
`_torchdelta`/`Delta`) and proofs about them.

Modelling conventions:
* A spectrogram tensor of shape `(c, y, x)` (channel × frequency × time)
  is a total function `Nat → Nat → Nat → ℚ` together with its extents;
  indices at or beyond the extents are irrelevant, and tensor equality is
  stated on in-range indices (`Spectro.EqOn`).
* Python floats are modelled as exact rationals; `int(...)` on a
  non-negative quantity is the floor, in general truncation toward zero
  (`truncQ`).
* Calls to the process-wide random source are modelled by explicit draw
  parameters.  `random.randint(0, hi)` is `randint0 hi r`: it fails with
  the `ValueError: empty range` that Python raises when `hi < 0`, and
  otherwise returns the draw `r` (theorems that depend on the value of a
  draw carry the hypothesis `r ≤ hi` that the sampler guarantees).
* Exceptions are modelled with `Except PyErr`; each `PyErr` constructor
  records the data interpolated into the corresponding Python message.
* The `AudioSpectrogram` class itself lives in `fastaudio/core` (not part
  of the sources under verification); following the spec, it carries the
  scalar attributes `sr`, `hop_length` and the advisory metadata
  `sample_start` / `sample_end`, and transforms act on its tensor content.
-/

/-- Errors raised by the transforms.  Each constructor carries the values
reported in the corresponding Python exception message. -/
inductive PyErr where
  /-- `ValueError: empty range for randrange()` from `random.randint(0, hi)`
  with `hi < 0`. -/
  | emptyRange : PyErr
  /-- `ValueError: Start value '{start}' out of range for AudioSpectrogram
  of shape {sg.shape}` from `MaskFreq.encodes`. -/
  | startOutOfRange (start : Int) (c y x : Nat) : PyErr
  /-- `ValueError: pad_mode {pad_m} not currently supported ...` from
  `_tfm_pad_spectro`. -/
  | unsupportedPadMode (mode : String) : PyErr
  /-- `ValueError: Direction must be -1(left) 0(bidirectional) or 1(right)`
  from `SGRoll.__init__`. -/
  | badDirection : PyErr
  /-- `ValueError: Delta not possible with current settings ...` from
  `_torchdelta` when the channel has fewer than `width` time frames. -/
  | deltaTooNarrow (width : Nat) : PyErr
  /-- `RuntimeError` from `torch.cat` on an empty list of tensors
  (`Delta.encodes` on a zero-channel input). -/
  | emptyCat : PyErr
  /-- `ZeroDivisionError` (division or modulo by zero). -/
  | zeroDivision : PyErr
  deriving DecidableEq

/-- An `AudioSpectrogram`: a `(c, y, x)`-shaped tensor
(channel × frequency-bin × time-frame) with entries `data ci fi tj`,
plus the scalar attributes `sr` (sample rate), `hop_length`, and the
advisory metadata `sample_start` / `sample_end` (absent unless set by
`CropTime`'s crop branch).  Entries at indices outside the extents are
irrelevant. -/
structure Spectro where
  c : Nat
  y : Nat
  x : Nat
  data : Nat → Nat → Nat → ℚ
  sr : Nat
  hop_length : Nat
  sample_start : Option Nat := none
  sample_end : Option Nat := none

/-- Tensor equality on the in-range indices, together with equality of the
extents and of all scalar attributes: the notion of "bit-identical"
spectrograms in this embedding. -/
def Spectro.EqOn (a b : Spectro) : Prop :=
  a.c = b.c ∧ a.y = b.y ∧ a.x = b.x ∧ a.sr = b.sr ∧
    a.hop_length = b.hop_length ∧ a.sample_start = b.sample_start ∧
    a.sample_end = b.sample_end ∧
    ∀ ci < b.c, ∀ fi < b.y, ∀ tj < b.x, a.data ci fi tj = b.data ci fi tj

/-- Python's `int(q)` on a rational: truncation toward zero. -/
def truncQ (q : ℚ) : Int :=
  if 0 ≤ q then ((q.num.toNat / q.den : Nat) : Int)
  else -(((-q.num).toNat / q.den : Nat) : Int)

/-- `random.randint(0, hi)` with explicit draw `r`: raises
`ValueError: empty range` when `hi < 0`, otherwise yields the draw.
(The real sampler guarantees `r ≤ hi`; theorems that depend on the drawn
value state that bound as a hypothesis.) -/
def randint0 (hi : Int) (r : Nat) : Except PyErr Nat :=
  if hi < 0 then .error .emptyRange else .ok r

/-- Python's `str.lower` (ASCII case folding, which is all the pad-mode
strings use): lowercase every character of the string. -/
def strLower (s : String) : String := String.mk (s.data.map Char.toLower)

/-- `_tfm_pad_spectro(sg, width, pad_mode)`: pad a spectrogram to `width`
time frames.  `rp` is the draw for the random placement offset used by the
`"zeros"` mode.  Mode matching is on the lowercased mode string.
(The torch size-mismatch error that an out-of-contract call with
`width < x` would raise inside the `"zeros_after"` assignment is not
modelled; per the spec the helper's contract is `width ≥ x`.) -/
def tfm_pad_spectro (sg : Spectro) (width : Nat) (pad_mode : String)
    (rp : Nat) : Except PyErr Spectro :=
  if strLower pad_mode = "zeros" ∨ strLower pad_mode = "zeros_after" then
    match (if strLower pad_mode = "zeros" then
             randint0 ((width : Int) - sg.x) rp
           else .ok 0) with
    | .error e => .error e
    | .ok start =>
      .ok { sg with
            x := width,
            data := fun ci fi tj =>
              if start ≤ tj ∧ tj < start + sg.x then sg.data ci fi (tj - start)
              else 0 }
  else if strLower pad_mode = "repeat" then
    if sg.x = 0 then .error .zeroDivision
    else
      .ok { sg with
            x := width,
            data := fun ci fi tj => sg.data ci fi (tj % sg.x) }
  else .error (.unsupportedPadMode (strLower pad_mode))

/-- The target frame width computed by `CropTime.encodes`:
`w_crop = int((sr * self.duration) / (1000 * hop)) + 1`, the floor of an
exact (non-negative) rational, i.e. natural-number division. -/
def w_crop (sr hop_length duration : Nat) : Nat :=
  sr * duration / (1000 * hop_length) + 1

/-- `CropTime(duration, pad_mode).encodes(sg)`.  `duration` is in
milliseconds.  `rc` is the draw for the random crop start, `rp` the draw
forwarded to the pad helper.  Computes `w_crop` (`ZeroDivisionError` when
`hop_length = 0`), then leaves the input unchanged, pads, or crops; the
crop branch records the advisory metadata
`sample_start = int(crop_start * hop)` and
`sample_end = sample_start + int(duration * sr)`. -/
def cropTime_encodes (duration : Nat) (pad_mode : String) (rc rp : Nat)
    (sg : Spectro) : Except PyErr Spectro :=
  if sg.hop_length = 0 then .error .zeroDivision
  else if sg.x = w_crop sg.sr sg.hop_length duration then .ok sg
  else if sg.x < w_crop sg.sr sg.hop_length duration then
    tfm_pad_spectro sg (w_crop sg.sr sg.hop_length duration) pad_mode rp
  else
    match randint0 ((sg.x : Int) - w_crop sg.sr sg.hop_length duration) rc with
    | .error e => .error e
    | .ok crop_start =>
      .ok { sg with
            x := w_crop sg.sr sg.hop_length duration,
            data := fun ci fi tj => sg.data ci fi (crop_start + tj),
            sample_start := some (crop_start * sg.hop_length),
            sample_end := some (crop_start * sg.hop_length +
              duration * sg.sr) }

/-- Per-channel mean over all frequency/time positions, as computed by
`sg.contiguous().view(sg.size(0), -1).mean(-1)` at the start of
`MaskFreq.encodes`. -/
def channelMean (sg : Spectro) (ci : Nat) : ℚ :=
  (∑ fi ∈ Finset.range sg.y, ∑ tj ∈ Finset.range sg.x, sg.data ci fi tj) /
    ((sg.y * sg.x : Nat) : ℚ)

/-- The `for _ in range(self.num_masks)` loop of `MaskFreq.encodes`:
`n` masks remain; `start` is the (possibly supplied) start row for the
next mask; `rand i` is the draw used by the `i`-th in-loop resampling of
`start`.  Each iteration validates `0 <= start <= y - size`, raising the
range `ValueError` otherwise, overwrites rows `[start, start+size)` of all
channels and time frames with the per-channel fill value, and resamples
`start`. -/
def maskFreqLoop (size : Nat) (maskVal : Nat → ℚ) (rand : Nat → Nat) :
    Nat → Int → Nat → Spectro → Except PyErr Spectro
  | 0, _, _, sg => .ok sg
  | n + 1, start, i, sg =>
    if 0 ≤ start ∧ start ≤ (sg.y : Int) - size then
      match randint0 ((sg.y : Int) - size) (rand i) with
      | .error e => .error e
      | .ok start' =>
        maskFreqLoop size maskVal rand n (start' : Int) (i + 1)
          { sg with
            data := fun ci fi tj =>
              if start ≤ (fi : Int) ∧ (fi : Int) < start + size then maskVal ci
              else sg.data ci fi tj }
    else .error (.startOutOfRange start sg.c sg.y sg.x)

/-- `MaskFreq(num_masks, size, start, val).encodes(sg)`.  `rand0` is the
draw for the pre-loop `random.randint(0, y - size)` — note that
`ifnone(self.start, random.randint(...))` evaluates the sampler eagerly,
so this call happens (and can raise `empty range`) even when a fixed
`start` is supplied; `rand` supplies the in-loop resampling draws.  The
fill value defaults to the per-channel mean computed at call time. -/
def maskFreq_encodes (num_masks size : Nat) (start? : Option Int)
    (val? : Option ℚ) (rand0 : Nat) (rand : Nat → Nat) (sg : Spectro) :
    Except PyErr Spectro :=
  match randint0 ((sg.y : Int) - size) rand0 with
  | .error e => .error e
  | .ok d =>
    maskFreqLoop size (fun ci => val?.getD (channelMean sg ci)) rand
      num_masks (match start? with | some s => s | none => (d : Int)) 0 sg

/-- `torch.einsum("...ij->...ji", sg)`: swap the frequency and time axes,
keeping the channel axis and all scalar attributes. -/
def transposeSG (sg : Spectro) : Spectro :=
  { sg with
    y := sg.x,
    x := sg.y,
    data := fun ci fi tj => sg.data ci tj fi }

/-- `MaskTime(num_masks, size, start, val).encodes(sg)`: transpose the
frequency and time axes, delegate to `MaskFreq` with identical parameters,
and transpose back. -/
def maskTime_encodes (num_masks size : Nat) (start? : Option Int)
    (val? : Option ℚ) (rand0 : Nat) (rand : Nat → Nat) (sg : Spectro) :
    Except PyErr Spectro :=
  Except.map transposeSG
    (maskFreq_encodes num_masks size start? val? rand0 rand (transposeSG sg))

/-- `SGRoll.__init__(max_shift_pct, direction)`: rejects the configuration
with the direction `ValueError` unless `int(direction) in [-1, 0, 1]`
(Python's `int` truncates toward zero), then stores both attributes
unchanged. -/
def sgRoll_init (max_shift_pct direction : ℚ) : Except PyErr (ℚ × ℚ) :=
  if truncQ direction = -1 ∨ truncQ direction = 0 ∨ truncQ direction = 1
  then .ok (max_shift_pct, direction)
  else .error .badDirection

/-- The shift amount
`int(w * random.random() * self.max_shift_pct * direction)` computed by
`SGRoll.encodes`, where `direction` is `random.choice([-1, 1])` (the
`choice` parameter) when the stored direction equals `0`, and the stored
direction itself otherwise; `r` is the `random.random()` draw. -/
def sgRoll_rollBy (max_shift_pct direction : ℚ) (choice : Int) (r : ℚ)
    (w : Nat) : Int :=
  truncQ ((w : ℚ) * r * max_shift_pct *
    (if direction = 0 then (choice : ℚ) else direction))

/-- `SGRoll(max_shift_pct, direction).encodes(sg)`:
`sg.roll(roll_by, dims=-1)`, a circular shift along the time axis —
entry `tj` of the output is entry `(tj - roll_by) mod w` of the input
(Euclidean mod, matching torch/Python wraparound). -/
def sgRoll_encodes (max_shift_pct direction : ℚ) (choice : Int) (r : ℚ)
    (sg : Spectro) : Spectro :=
  { sg with
    data := fun ci fi tj =>
      (sg.data ci fi
        (((tj : Int) - sgRoll_rollBy max_shift_pct direction choice r sg.x) %
          (sg.x : Int)).toNat) }

/-- `Delta(width).encodes(sg)` composed with `_torchdelta`.

`dfun order plane` models `librosa.feature.delta(plane, order=order,
width=width)`.  Modelled from the spec: `librosa.feature.delta` is an
external collaborator ("finite-difference derivative computation over a 2D
signal with a window parameter") that produces a derivative plane of the
same shape as its input channel, so it is abstracted as an arbitrary
plane transform and shape preservation is by construction.

Faithful to the evaluation order of
`[torch.stack([c, self.td(c, order=1), self.td(c, order=2)]) for c in sg]`
followed by `torch.cat(new_channels, dim=0)`:
* zero input channels: the comprehension is empty and `torch.cat([])`
  raises (`emptyCat`);
* otherwise, the first `_torchdelta` call raises the configuration
  `ValueError` when the channel has fewer than `width` time frames
  (`sg.shape[1] < width` on a `(y, x)`-shaped channel plane);
* otherwise output channel `3*q + 0/1/2` is channel `q`'s original plane,
  order-1 delta, and order-2 delta respectively. -/
def delta_encodes (width : Nat)
    (dfun : Nat → (Nat → Nat → ℚ) → (Nat → Nat → ℚ)) (sg : Spectro) :
    Except PyErr Spectro :=
  if sg.c = 0 then .error .emptyCat
  else if sg.x < width then .error (.deltaTooNarrow width)
  else
    .ok { sg with
          c := 3 * sg.c,
          data := fun ch fi tj =>
            match ch % 3 with
            | 0 => sg.data (ch / 3) fi tj
            | 1 => dfun 1 (sg.data (ch / 3)) fi tj
            | _ => dfun 2 (sg.data (ch / 3)) fi tj }

section Helpers

theorem randint0_of_nonneg {hi : Int} (r : Nat) (h : 0 ≤ hi) :
    randint0 hi r = .ok r := by
  unfold randint0
  rw [if_neg (by omega)]

theorem randint0_of_neg {hi : Int} (r : Nat) (h : hi < 0) :
    randint0 hi r = .error .emptyRange := by
  unfold randint0
  rw [if_pos h]

theorem tfm_pad_spectro_fields {sg : Spectro} {width : Nat}
    {pad_mode : String} {rp : Nat} {out : Spectro}
    (h : tfm_pad_spectro sg width pad_mode rp = .ok out) :
    out.c = sg.c ∧ out.y = sg.y ∧ out.x = width ∧ out.sr = sg.sr ∧
      out.hop_length = sg.hop_length ∧ out.sample_start = sg.sample_start ∧
      out.sample_end = sg.sample_end := by
  unfold tfm_pad_spectro at h
  split at h
  · split at h
    · cases h
    · cases h
      exact ⟨rfl, rfl, rfl, rfl, rfl, rfl, rfl⟩
  · split at h
    · split at h
      · cases h
      · cases h
        exact ⟨rfl, rfl, rfl, rfl, rfl, rfl, rfl⟩
    · cases h

theorem tfm_pad_spectro_isOk (sg : Spectro) (width : Nat) (pad_mode : String)
    (rp : Nat)
    (hmode : strLower pad_mode = "zeros" ∨ strLower pad_mode = "zeros_after" ∨
      strLower pad_mode = "repeat")
    (hx : 0 < sg.x) (hw : sg.x ≤ width) :
    ∃ out, tfm_pad_spectro sg width pad_mode rp = .ok out := by
  unfold tfm_pad_spectro
  rcases hmode with hm | hm | hm
  · rw [if_pos (Or.inl hm), if_pos hm, randint0_of_nonneg _ (by omega)]
    exact ⟨_, rfl⟩
  · rw [if_pos (Or.inr hm), if_neg (by rw [hm]; simp)]
    exact ⟨_, rfl⟩
  · rw [if_neg (by rw [hm]; simp), if_pos hm, if_neg (by omega)]
    exact ⟨_, rfl⟩

end Helpers

theorem maskFreqLoop_fields (size : Nat) (maskVal : Nat → ℚ)
    (rand : Nat → Nat) :
    ∀ (n : Nat) (start : Int) (i : Nat) (sg out : Spectro),
      maskFreqLoop size maskVal rand n start i sg = .ok out →
      out.c = sg.c ∧ out.y = sg.y ∧ out.x = sg.x ∧ out.sr = sg.sr ∧
        out.hop_length = sg.hop_length ∧
        out.sample_start = sg.sample_start ∧ out.sample_end = sg.sample_end
  | 0, _, _, sg, out, h => by
    cases h
    exact ⟨rfl, rfl, rfl, rfl, rfl, rfl, rfl⟩
  | n + 1, start, i, sg, out, h => by
    unfold maskFreqLoop at h
    split at h
    · split at h
      · cases h
      · have hrec := maskFreqLoop_fields size maskVal rand n _ (i + 1) _ out h
        exact hrec
    · cases h

/-- The spec's end-to-end example input: a 1×64×100 spectrogram with
`sr = 16000` and `hop_length = 160`. -/
def sgEx : Spectro :=
  { c := 1, y := 64, x := 100,
    data := fun ci fi tj => ((ci + 2 * fi + 5 * tj : Nat) : ℚ),
    sr := 16000, hop_length := 160 }

/-- A 1×64×51 spectrogram with `sr = 16000` and `hop_length = 160`: its
width already equals `w_crop 16000 160 500 = 51`. -/
def sgEq : Spectro :=
  { c := 1, y := 64, x := 51,
    data := fun ci fi tj => ((ci + 2 * fi + 5 * tj : Nat) : ℚ),
    sr := 16000, hop_length := 160 }

/-- A small 1×2×2 spectrogram used as concrete input. -/
def sgSmall : Spectro :=
  { c := 1, y := 2, x := 2,
    data := fun ci fi tj => ((ci + 2 * fi + 5 * tj : Nat) : ℚ),
    sr := 8, hop_length := 2 }

/-- **C1.**  The claim is wrong about the code and right about the intent:
on the spec's own example (1×64×100, `sr = 16000`, `hop_length = 160`,
`duration = 500` ms, crop start drawn `0`), the crop branch of
`CropTime.encodes` sets `sample_start = 0 * 160 = 0` but
`sample_end = sample_start + int(self.duration * sr) =
sample_start + 500 * 16000 = 8000000`.  `self.duration` is in
milliseconds (the `w_crop` formula divides by 1000), so the duration
converted to samples via the sample rate is `16000 * 500 / 1000 = 8000`,
and the code's `sample_end` is 1000× that: the `/ 1000` conversion is
missing on line 30 of the source. -/
theorem cropTime_sample_end_units :
    (cropTime_encodes 500 "zeros" 0 0 sgEx).map
        (fun o => (o.x, o.sample_start, o.sample_end)) =
      .ok (51, some 0, some 8000000) ∧
      (8000000 : Nat) ≠ 0 + 16000 * 500 / 1000 :=
  ⟨rfl, by decide⟩

/-- **C9.**  When the input width already equals `w_crop`,
`CropTime.encodes` returns the input itself, bit-identical, with no
metadata mutation; when `w_sg < w_crop` (pad branch) the returned
spectrogram's `sample_start`/`sample_end` are unchanged from the input;
only on the crop branch `w_sg > w_crop` are they set. -/
theorem cropTime_metadata_only_on_crop_branch (duration : Nat)
    (pad_mode : String) (rc rp : Nat) (sg : Spectro)
    (hhop : sg.hop_length ≠ 0) :
    (sg.x = w_crop sg.sr sg.hop_length duration →
      cropTime_encodes duration pad_mode rc rp sg = .ok sg) ∧
    (sg.x < w_crop sg.sr sg.hop_length duration →
      ∀ out, cropTime_encodes duration pad_mode rc rp sg = .ok out →
        out.sample_start = sg.sample_start ∧
        out.sample_end = sg.sample_end) ∧
    (w_crop sg.sr sg.hop_length duration < sg.x →
      ∀ out, cropTime_encodes duration pad_mode rc rp sg = .ok out →
        out.sample_start = some (rc * sg.hop_length) ∧
        out.sample_end = some (rc * sg.hop_length + duration * sg.sr)) := by
  refine ⟨?_, ?_, ?_⟩
  · intro h
    unfold cropTime_encodes
    rw [if_neg hhop, if_pos h]
  · intro h out hout
    unfold cropTime_encodes at hout
    rw [if_neg hhop, if_neg (by omega), if_pos h] at hout
    have hf := tfm_pad_spectro_fields hout
    exact ⟨hf.2.2.2.2.2.1, hf.2.2.2.2.2.2⟩
  · intro h out hout
    unfold cropTime_encodes at hout
    rw [if_neg hhop, if_neg (by omega), if_neg (by omega),
      randint0_of_nonneg rc (by omega)] at hout
    cases hout
    exact ⟨rfl, rfl⟩

/-- Witness for C9: the 1×64×51 input with `sr = 16000`,
`hop_length = 160`, `duration = 500` hits the equal-width branch and is
returned unchanged. -/
theorem cropTime_metadata_only_on_crop_branch_witness :
    cropTime_encodes 500 "zeros" 0 0 sgEq = .ok sgEq :=
  (cropTime_metadata_only_on_crop_branch 500 "zeros" 0 0 sgEq
    (by decide)).1 (by decide)

/-- **C4.**  For every input spectrogram (with a positive hop length and a
non-empty time axis) and every supported pad mode, `CropTime.encodes`
returns a spectrogram whose time-frame count is exactly
`w_crop = floor(sr * duration / (1000 * hop_length)) + 1`, with channel
and frequency extents unchanged — in all three branches (equal, pad,
crop). -/
theorem cropTime_output_shape (duration : Nat) (pad_mode : String)
    (rc rp : Nat) (sg : Spectro) (hhop : sg.hop_length ≠ 0) (hx : 0 < sg.x)
    (hmode : strLower pad_mode = "zeros" ∨ strLower pad_mode = "zeros_after" ∨
      strLower pad_mode = "repeat") :
    ∃ out, cropTime_encodes duration pad_mode rc rp sg = .ok out ∧
      out.x = w_crop sg.sr sg.hop_length duration ∧
      out.c = sg.c ∧ out.y = sg.y := by
  unfold cropTime_encodes
  rw [if_neg hhop]
  by_cases h1 : sg.x = w_crop sg.sr sg.hop_length duration
  · rw [if_pos h1]
    exact ⟨sg, rfl, h1, rfl, rfl⟩
  · rw [if_neg h1]
    by_cases h2 : sg.x < w_crop sg.sr sg.hop_length duration
    · rw [if_pos h2]
      obtain ⟨out, hout⟩ :=
        tfm_pad_spectro_isOk sg _ pad_mode rp hmode hx (le_of_lt h2)
      have hf := tfm_pad_spectro_fields hout
      exact ⟨out, hout, hf.2.2.1, hf.1, hf.2.1⟩
    · rw [if_neg h2, randint0_of_nonneg rc (by omega)]
      exact ⟨_, rfl, rfl, rfl, rfl⟩

/-- Witness for C4: the 1×64×100 example goes through the crop branch and
comes out with width `w_crop 16000 160 500 = 51` and unchanged channel and
frequency extents. -/
theorem cropTime_output_shape_witness :
    ∃ out, cropTime_encodes 500 "zeros" 3 0 sgEx = .ok out ∧
      out.x = w_crop sgEx.sr sgEx.hop_length 500 ∧
      out.c = sgEx.c ∧ out.y = sgEx.y :=
  cropTime_output_shape 500 "zeros" 3 0 sgEx (by decide) (by decide)
    (Or.inl (by decide))

/-- Discriminates the unsupported-pad-mode configuration error among all
possible outcomes of `_tfm_pad_spectro`. -/
def isUnsupportedModeErr : Except PyErr Spectro → Bool
  | .error (.unsupportedPadMode _) => true
  | _ => false

theorem tfm_pad_unsupported_iff (sg : Spectro) (width rp : Nat)
    (mode : String) :
    isUnsupportedModeErr (tfm_pad_spectro sg width mode rp) = true ↔
      ¬(strLower mode = "zeros" ∨ strLower mode = "zeros_after" ∨
        strLower mode = "repeat") := by
  unfold tfm_pad_spectro
  by_cases h1 : strLower mode = "zeros" ∨ strLower mode = "zeros_after"
  · rw [if_pos h1]
    constructor
    · intro he
      exfalso
      cases hscrut : (if strLower mode = "zeros" then
          randint0 ((width : Int) - sg.x) rp
          else (Except.ok 0 : Except PyErr Nat)) with
      | error e =>
        have he2 : e = .emptyRange := by
          by_cases hz : strLower mode = "zeros"
          · rw [if_pos hz] at hscrut
            unfold randint0 at hscrut
            split at hscrut
            · cases hscrut; rfl
            · cases hscrut
          · rw [if_neg hz] at hscrut
            cases hscrut
        rw [hscrut, he2] at he
        simp [isUnsupportedModeErr] at he
      | ok s =>
        rw [hscrut] at he
        simp [isUnsupportedModeErr] at he
    · intro hn
      exact absurd (h1.imp id Or.inl) hn
  · rw [if_neg h1]
    by_cases h2 : strLower mode = "repeat"
    · rw [if_pos h2]
      constructor
      · intro he
        exfalso
        by_cases hx0 : sg.x = 0
        · rw [if_pos hx0] at he
          simp [isUnsupportedModeErr] at he
        · rw [if_neg hx0] at he
          simp [isUnsupportedModeErr] at he
      · intro hn
        exact absurd (Or.inr (Or.inr h2)) hn
    · rw [if_neg h2]
      simp only [isUnsupportedModeErr, true_iff]
      intro hor
      rcases hor with hm | hm | hm
      · exact h1 (Or.inl hm)
      · exact h1 (Or.inr hm)
      · exact h2 hm

/-- **C10.**  The pad helper matches its mode case-insensitively: the mode
string is lowercased before comparison, so a call with any string whose
lowercase form is `"zeros"`, `"zeros_after"` or `"repeat"` (e.g.
`"ZEROS"`, `"Repeat"`) behaves exactly as a call with that lowercase
mode, and the unsupported-mode configuration error occurs if and only if
the lowercased mode is none of the three (reporting the lowercased
mode). -/
theorem tfm_pad_mode_case_insensitive (sg : Spectro) (width rp : Nat)
    (mode : String) :
    (strLower mode = "zeros" →
      tfm_pad_spectro sg width mode rp =
        tfm_pad_spectro sg width "zeros" rp) ∧
    (strLower mode = "zeros_after" →
      tfm_pad_spectro sg width mode rp =
        tfm_pad_spectro sg width "zeros_after" rp) ∧
    (strLower mode = "repeat" →
      tfm_pad_spectro sg width mode rp =
        tfm_pad_spectro sg width "repeat" rp) ∧
    (isUnsupportedModeErr (tfm_pad_spectro sg width mode rp) = true ↔
      ¬(strLower mode = "zeros" ∨ strLower mode = "zeros_after" ∨
        strLower mode = "repeat")) ∧
    (¬(strLower mode = "zeros" ∨ strLower mode = "zeros_after" ∨
        strLower mode = "repeat") →
      tfm_pad_spectro sg width mode rp =
        .error (.unsupportedPadMode (strLower mode))) := by
  have hdep : ∀ m2 : String, strLower mode = strLower m2 →
      tfm_pad_spectro sg width mode rp = tfm_pad_spectro sg width m2 rp := by
    intro m2 h
    unfold tfm_pad_spectro
    rw [h]
  refine ⟨?_, ?_, ?_, tfm_pad_unsupported_iff sg width rp mode, ?_⟩
  · intro h
    exact hdep "zeros" (h.trans (by decide))
  · intro h
    exact hdep "zeros_after" (h.trans (by decide))
  · intro h
    exact hdep "repeat" (h.trans (by decide))
  · intro hn
    unfold tfm_pad_spectro
    rw [if_neg (fun h => hn (h.imp id Or.inl)),
      if_neg (fun h => hn (Or.inr (Or.inr h)))]

/-- Witness for C10: `"ZEROS"` lowercases to `"zeros"` and is accepted,
behaving exactly as `"zeros"`. -/
theorem tfm_pad_mode_case_insensitive_witness :
    strLower "ZEROS" = "zeros" ∧
      tfm_pad_spectro sgSmall 5 "ZEROS" 1 =
        tfm_pad_spectro sgSmall 5 "zeros" 1 :=
  ⟨by decide, (tfm_pad_mode_case_insensitive sgSmall 5 1 "ZEROS").1 (by decide)⟩

/-- **C2, counterexample to the claim as stated.**  With mask size `3`
exceeding `num_freq_bins = 2` and a SUPPLIED fixed start `0`,
`MaskFreq.encodes` does not raise the invalid-runtime-range error
reporting the start value and the tensor shape:
`ifnone(self.start, random.randint(0, y - self.size))` evaluates the
sampler eagerly even though the supplied start would be used, so the call
fails first with the sampler's `empty range` error, which is a different
error carrying neither the start value nor the shape. -/
theorem maskFreq_oversize_supplied_start_empty_range :
    maskFreq_encodes 1 3 (some 0) none 0 (fun _ => 0) sgSmall =
        .error .emptyRange ∧
      PyErr.emptyRange ≠
        PyErr.startOutOfRange 0 sgSmall.c sgSmall.y sgSmall.x :=
  ⟨rfl, by decide⟩

/-- **C2 (amended).**  `MaskFreq`'s failure modes:
(a) when `size ≤ num_freq_bins` and a supplied fixed start `k` lies
outside `[0, num_freq_bins - size]` (with at least one mask), the call
fails with the invalid-runtime-range error reporting `k` and the tensor
shape; (b) when `size > num_freq_bins`, the call fails immediately —
whether or not a start was supplied — but with the random sampler's
empty-range error, raised while eagerly evaluating the default start,
before any validation. -/
theorem maskFreq_range_errors (num_masks size : Nat) (k : Int)
    (start? : Option Int) (val? : Option ℚ) (rand0 : Nat)
    (rand : Nat → Nat) (sg : Spectro) :
    (size ≤ sg.y → 1 ≤ num_masks → ¬(0 ≤ k ∧ k ≤ (sg.y : Int) - size) →
      maskFreq_encodes num_masks size (some k) val? rand0 rand sg =
        .error (.startOutOfRange k sg.c sg.y sg.x)) ∧
    (sg.y < size →
      maskFreq_encodes num_masks size start? val? rand0 rand sg =
        .error .emptyRange) := by
  constructor
  · intro hsz hnm hk
    obtain ⟨m, rfl⟩ : ∃ m, num_masks = m + 1 := ⟨num_masks - 1, by omega⟩
    unfold maskFreq_encodes
    rw [randint0_of_nonneg rand0 (by omega)]
    show maskFreqLoop size (fun ci => val?.getD (channelMean sg ci)) rand
      (m + 1) k 0 sg = .error (.startOutOfRange k sg.c sg.y sg.x)
    unfold maskFreqLoop
    rw [if_neg hk]
  · intro hy
    unfold maskFreq_encodes
    rw [randint0_of_neg rand0 (by omega)]

/-- Witness for the amended C2: on the 1×2×2 input with `size = 1` and
supplied start `5 ∉ [0, 1]`, the call fails with the range error
reporting start `5` and the shape `(1, 2, 2)`. -/
theorem maskFreq_range_errors_witness :
    maskFreq_encodes 1 1 (some 5) none 0 (fun _ => 0) sgSmall =
      .error (.startOutOfRange 5 sgSmall.c sgSmall.y sgSmall.x) :=
  (maskFreq_range_errors 1 1 5 (some 5) none 0 (fun _ => 0) sgSmall).1
    (by decide) (by decide) (by decide)

/-- **C7.**  `MaskFreq` with one mask, size `s` and a supplied valid fixed
start `k` (`0 ≤ k ≤ num_freq_bins - s`): the call succeeds, the output has
the input's extents, rows `[k, k+s)` equal the fill value — the supplied
`val`, or by default the per-channel mean computed from the input at call
time — across all channels and time frames, and all other rows are
unchanged from the input. -/
theorem maskFreq_single_mask (size : Nat) (k : Int) (val? : Option ℚ)
    (rand0 : Nat) (rand : Nat → Nat) (sg : Spectro)
    (hk0 : 0 ≤ k) (hk1 : k ≤ (sg.y : Int) - size) :
    ∃ out, maskFreq_encodes 1 size (some k) val? rand0 rand sg = .ok out ∧
      out.c = sg.c ∧ out.y = sg.y ∧ out.x = sg.x ∧
      (∀ (ci fi tj : Nat), k ≤ (fi : Int) ∧ (fi : Int) < k + size →
        out.data ci fi tj = val?.getD (channelMean sg ci)) ∧
      (∀ (ci fi tj : Nat), ¬(k ≤ (fi : Int) ∧ (fi : Int) < k + size) →
        out.data ci fi tj = sg.data ci fi tj) := by
  have hres : maskFreq_encodes 1 size (some k) val? rand0 rand sg =
      .ok { sg with
            data := fun ci fi tj =>
              if k ≤ (fi : Int) ∧ (fi : Int) < k + size
              then val?.getD (channelMean sg ci) else sg.data ci fi tj } := by
    unfold maskFreq_encodes
    rw [randint0_of_nonneg rand0 (by omega)]
    show maskFreqLoop size (fun ci => val?.getD (channelMean sg ci)) rand
      1 k 0 sg = _
    unfold maskFreqLoop
    rw [if_pos ⟨hk0, hk1⟩, randint0_of_nonneg (rand 0) (by omega)]
    show maskFreqLoop _ _ rand 0 _ 1 _ = _
    unfold maskFreqLoop
    rfl
  refine ⟨_, hres, rfl, rfl, rfl, ?_, ?_⟩
  · intro ci fi tj hin
    exact if_pos hin
  · intro ci fi tj hnotin
    exact if_neg hnotin

/-- Witness for C7: one mask of size 1 at supplied start 0 with fill value
5 on the 1×2×2 input. -/
theorem maskFreq_single_mask_witness :
    ∃ out, maskFreq_encodes 1 1 (some 0) (some 5) 0 (fun _ => 0) sgSmall =
        .ok out ∧
      out.c = sgSmall.c ∧ out.y = sgSmall.y ∧ out.x = sgSmall.x ∧
      (∀ (ci fi tj : Nat), (0 : Int) ≤ (fi : Int) ∧ (fi : Int) < 0 + 1 →
        out.data ci fi tj = (some (5 : ℚ)).getD (channelMean sgSmall ci)) ∧
      (∀ (ci fi tj : Nat), ¬((0 : Int) ≤ (fi : Int) ∧ (fi : Int) < 0 + 1) →
        out.data ci fi tj = sgSmall.data ci fi tj) :=
  maskFreq_single_mask 1 0 (some 5) 0 (fun _ => 0) sgSmall (by decide)
    (by decide)

theorem maskFreq_encodes_fields {num_masks size : Nat} {start? : Option Int}
    {val? : Option ℚ} {rand0 : Nat} {rand : Nat → Nat} {sg out : Spectro}
    (h : maskFreq_encodes num_masks size start? val? rand0 rand sg =
      .ok out) :
    out.c = sg.c ∧ out.y = sg.y ∧ out.x = sg.x ∧ out.sr = sg.sr ∧
      out.hop_length = sg.hop_length ∧
      out.sample_start = sg.sample_start ∧ out.sample_end = sg.sample_end := by
  unfold maskFreq_encodes at h
  split at h
  · cases h
  · exact maskFreqLoop_fields _ _ _ _ _ _ _ _ h

/-- **C5.**  `MaskTime.encodes` is exactly: transpose the frequency and
time axes, apply `MaskFreq.encodes` with identical parameters, transpose
back; consequently whenever it succeeds the output extents (hence shape)
equal the input's. -/
theorem maskTime_eq_transposed_maskFreq (num_masks size : Nat)
    (start? : Option Int) (val? : Option ℚ) (rand0 : Nat)
    (rand : Nat → Nat) (sg : Spectro) :
    maskTime_encodes num_masks size start? val? rand0 rand sg =
      Except.map transposeSG
        (maskFreq_encodes num_masks size start? val? rand0 rand
          (transposeSG sg)) ∧
    (∀ out, maskTime_encodes num_masks size start? val? rand0 rand sg =
        .ok out →
      out.c = sg.c ∧ out.y = sg.y ∧ out.x = sg.x) := by
  refine ⟨rfl, ?_⟩
  intro out hout
  unfold maskTime_encodes at hout
  cases hmf : maskFreq_encodes num_masks size start? val? rand0 rand
      (transposeSG sg) with
  | error e =>
    rw [hmf] at hout
    cases hout
  | ok mid =>
    rw [hmf] at hout
    have hout2 : (Except.ok (transposeSG mid) : Except PyErr Spectro) =
        Except.ok out := hout
    injection hout2 with h2
    subst h2
    have hf := maskFreq_encodes_fields hmf
    exact ⟨hf.1, hf.2.2.1, hf.2.1⟩

/-- The concrete output of `MaskTime` on `sgSmall` with one mask of size 1
at supplied start 0 and fill value 5. -/
def mtOut : Spectro :=
  transposeSG
    { transposeSG sgSmall with
      data := fun ci fi tj =>
        if (0 : Int) ≤ (fi : Int) ∧ (fi : Int) < 0 + 1
        then (some (5 : ℚ)).getD (channelMean (transposeSG sgSmall) ci)
        else (transposeSG sgSmall).data ci fi tj }

/-- Witness for C5 at a concrete input where `MaskTime` succeeds. -/
theorem maskTime_eq_transposed_maskFreq_witness :
    maskTime_encodes 1 1 (some 0) (some 5) 0 (fun _ => 0) sgSmall =
        .ok mtOut ∧
      mtOut.c = sgSmall.c ∧ mtOut.y = sgSmall.y ∧ mtOut.x = sgSmall.x :=
  ⟨rfl,
    (maskTime_eq_transposed_maskFreq 1 1 (some 0) (some 5) 0 (fun _ => 0)
      sgSmall).2 mtOut rfl⟩

theorem truncQ_eq_zero {q : ℚ} (h0 : 0 ≤ q) (h1 : q < 1) : truncQ q = 0 := by
  unfold truncQ
  rw [if_pos h0]
  have hn : q.num < q.den := Rat.lt_one_iff_num_lt_denom.mp h1
  have hnn : 0 ≤ q.num := Rat.num_nonneg.mpr h0
  have h2 : q.num.toNat < q.den := by omega
  rw [Nat.div_eq_of_lt h2]
  rfl

/-- **C8.**  `SGRoll` with `max_shift_pct = 0` is a no-op for every
direction value (covering the valid directions −1, 0, 1), every resolved
random choice and every `random.random()` draw: the computed shift amount
is 0 and the returned spectrogram equals the input (extents, attributes
and every in-range entry). -/
theorem sgRoll_zero_pct_noop (direction : ℚ) (choice : Int) (r : ℚ)
    (sg : Spectro) :
    sgRoll_rollBy 0 direction choice r sg.x = 0 ∧
      Spectro.EqOn (sgRoll_encodes 0 direction choice r sg) sg := by
  have hzero : sgRoll_rollBy 0 direction choice r sg.x = 0 := by
    unfold sgRoll_rollBy
    rw [show (sg.x : ℚ) * r * 0 *
        (if direction = 0 then (choice : ℚ) else direction) = 0 by ring]
    exact truncQ_eq_zero le_rfl one_pos
  refine ⟨hzero, rfl, rfl, rfl, rfl, rfl, rfl, rfl, ?_⟩
  intro ci _ fi _ tj htj
  show sg.data ci fi
      (((tj : Int) - sgRoll_rollBy 0 direction choice r sg.x) %
        (sg.x : Int)).toNat = sg.data ci fi tj
  rw [hzero, sub_zero, Int.emod_eq_of_lt (by omega) (by exact_mod_cast htj)]
  simp

/-- **C3, counterexample to the claim as stated.**  `SGRoll.__init__`
validates `int(direction)`, not `direction` itself: the non-integer
direction 0.5 — which is not one of −1, 0, 1 — truncates to 0 and is
accepted, so construction does not fail for every direction value outside
{−1, 0, 1}. -/
theorem sgRoll_init_accepts_half :
    sgRoll_init 1 (1 / 2) = .ok (1, 1 / 2) ∧
      ¬((1 / 2 : ℚ) = -1 ∨ (1 / 2 : ℚ) = 0 ∨ (1 / 2 : ℚ) = 1) := by
  have htr : truncQ (1 / 2 : ℚ) = 0 :=
    truncQ_eq_zero (by norm_num) (by norm_num)
  constructor
  · unfold sgRoll_init
    rw [if_pos (Or.inr (Or.inl htr))]
  · norm_num

/-- **C3 (amended).**  Constructing `SGRoll` succeeds exactly when
`int(direction)` — the truncation of the direction toward zero — is −1, 0
or 1: it succeeds for the three values −1, 0, 1 and also for any other
value truncating to one of them (e.g. 0.5), and fails with the
configuration error for every other direction. -/
theorem sgRoll_init_direction (max_shift_pct direction : ℚ) :
    (truncQ direction = -1 ∨ truncQ direction = 0 ∨ truncQ direction = 1 →
      sgRoll_init max_shift_pct direction = .ok (max_shift_pct, direction)) ∧
    (¬(truncQ direction = -1 ∨ truncQ direction = 0 ∨
        truncQ direction = 1) →
      sgRoll_init max_shift_pct direction = .error .badDirection) := by
  constructor
  · intro h
    unfold sgRoll_init
    rw [if_pos h]
  · intro h
    unfold sgRoll_init
    rw [if_neg h]

theorem truncQ_natCast (n : Nat) : truncQ (n : ℚ) = n := by
  unfold truncQ
  rw [if_pos (by positivity)]
  simp

/-- Witness for the amended C3: direction 2 truncates to 2 and is
rejected with the configuration error. -/
theorem sgRoll_init_direction_witness :
    sgRoll_init (1 / 2) 2 = .error .badDirection :=
  (sgRoll_init_direction (1 / 2) 2).2 (by
    rw [show (2 : ℚ) = ((2 : Nat) : ℚ) by norm_num, truncQ_natCast]
    decide)

/-- **C6.**  `Delta.encodes` (with any derivative plane transform `dfun`
standing for `librosa.feature.delta` at the configured window width) on
an input with at least one channel: it fails with the configuration error
when the time-frame count is smaller than the window width; otherwise it
succeeds with exactly 3× the input channel count and unchanged
frequency/time extents, and for every input channel `q` the output
channels `3q`, `3q+1`, `3q+2` are channel `q`'s original plane, order-1
delta and order-2 delta (so channel 0's triplet precedes channel 1's, and
the first plane of the first triplet is the original channel 0,
exactly). -/
theorem delta_triples (width : Nat)
    (dfun : Nat → (Nat → Nat → ℚ) → (Nat → Nat → ℚ)) (sg : Spectro)
    (hc : 0 < sg.c) :
    (sg.x < width →
      delta_encodes width dfun sg = .error (.deltaTooNarrow width)) ∧
    (width ≤ sg.x →
      ∃ out, delta_encodes width dfun sg = .ok out ∧
        out.c = 3 * sg.c ∧ out.y = sg.y ∧ out.x = sg.x ∧
        ∀ q < sg.c, ∀ (fi tj : Nat),
          out.data (3 * q) fi tj = sg.data q fi tj ∧
          out.data (3 * q + 1) fi tj = dfun 1 (sg.data q) fi tj ∧
          out.data (3 * q + 2) fi tj = dfun 2 (sg.data q) fi tj) := by
  constructor
  · intro h
    unfold delta_encodes
    rw [if_neg (by omega), if_pos h]
  · intro h
    unfold delta_encodes
    rw [if_neg (by omega), if_neg (by omega)]
    refine ⟨_, rfl, rfl, rfl, rfl, ?_⟩
    intro q _ fi tj
    have h0 : 3 * q % 3 = 0 := by omega
    have h0d : 3 * q / 3 = q := by omega
    have h1 : (3 * q + 1) % 3 = 1 := by omega
    have h1d : (3 * q + 1) / 3 = q := by omega
    have h2 : (3 * q + 2) % 3 = 2 := by omega
    have h2d : (3 * q + 2) / 3 = q := by omega
    refine ⟨?_, ?_, ?_⟩
    · show (match 3 * q % 3 with
        | 0 => sg.data (3 * q / 3) fi tj
        | 1 => dfun 1 (sg.data (3 * q / 3)) fi tj
        | _ => dfun 2 (sg.data (3 * q / 3)) fi tj) = sg.data q fi tj
      rw [h0, h0d]
    · show (match (3 * q + 1) % 3 with
        | 0 => sg.data ((3 * q + 1) / 3) fi tj
        | 1 => dfun 1 (sg.data ((3 * q + 1) / 3)) fi tj
        | _ => dfun 2 (sg.data ((3 * q + 1) / 3)) fi tj) =
        dfun 1 (sg.data q) fi tj
      rw [h1, h1d]
    · show (match (3 * q + 2) % 3 with
        | 0 => sg.data ((3 * q + 2) / 3) fi tj
        | 1 => dfun 1 (sg.data ((3 * q + 2) / 3)) fi tj
        | _ => dfun 2 (sg.data ((3 * q + 2) / 3)) fi tj) =
        dfun 2 (sg.data q) fi tj
      rw [h2, h2d]

/-- Witness for C6 at window width 1 on the 1×2×2 input, with the
identity standing in for the derivative transform. -/
theorem delta_triples_witness :
    (sgSmall.x < 1 →
      delta_encodes 1 (fun _ p => p) sgSmall =
        .error (.deltaTooNarrow 1)) ∧
    (1 ≤ sgSmall.x →
      ∃ out, delta_encodes 1 (fun _ p => p) sgSmall = .ok out ∧
        out.c = 3 * sgSmall.c ∧ out.y = sgSmall.y ∧ out.x = sgSmall.x ∧
        ∀ q < sgSmall.c, ∀ (fi tj : Nat),
          out.data (3 * q) fi tj = sgSmall.data q fi tj ∧
          out.data (3 * q + 1) fi tj =
            (fun _ p => p : Nat → (Nat → Nat → ℚ) → (Nat → Nat → ℚ)) 1
              (sgSmall.data q) fi tj ∧
          out.data (3 * q + 2) fi tj =
            (fun _ p => p : Nat → (Nat → Nat → ℚ) → (Nat → Nat → ℚ)) 2
              (sgSmall.data q) fi tj) :=
  delta_triples 1 (fun _ p => p) sgSmall (by decide)
